import Mathlib

set_option maxRecDepth 8000

/- Verification of the conversational core of DocYapper (src/app.py):
   document-context injection into a message list, the per-turn executor,
   the sidebar document-loading branches, and the two extraction helpers.
   Messages are shallowly embedded: a LangChain message object becomes a
   role tag plus its string content; Streamlit session state becomes an
   explicit Session record; the external LLM client is a function
   returning an Except value (error = raised exception). -/

/-- Message roles: HumanMessage, AIMessage and SystemMessage from
langchain_core.messages, as used in src/app.py. -/
inductive Role where
  | user
  | assistant
  | system
deriving DecidableEq, Repr, BEq

/-- A single chat message: its role tag and its string content. -/
structure Message where
  role : Role
  content : String
deriving DecidableEq, Repr

/-- Boolean test that the first list is an initial segment of the second. -/
def listStartsWith : List Char → List Char → Bool
  | [], _ => true
  | _ :: _, [] => false
  | a :: as, b :: bs => a == b && listStartsWith as bs

/-- Boolean test that the first list occurs contiguously inside the second. -/
def listHasSub : List Char → List Char → Bool
  | n, [] => listStartsWith n []
  | n, b :: bs => listStartsWith n (b :: bs) || listHasSub n bs

/-- Python's substring operator needle in hay, over the characters. -/
def containsStr (needle hay : String) : Bool :=
  listHasSub needle.data hay.data

/-- Python string slicing s[:n]: the first n characters (code points). -/
def strTake (s : String) (n : Nat) : String :=
  ⟨s.data.take n⟩

/-- The fixed part of the f-string of src/app.py lines 119-125 that comes
before the interpolated context snippet. -/
def ctxHeader : String :=
  "You are a helpful assistant. You have access to the following document content:\n\n---\n"

/-- The fixed part of the f-string of src/app.py lines 119-125 that comes
after the interpolated context snippet. -/
def ctxFooter : String :=
  "\n---\n\nAnswer the user's questions based on this document. If the answer is not in the document, say so."

/-- The SystemMessage built at src/app.py lines 118-126 around a snippet. -/
def contextMessage (snippet : String) : Message :=
  ⟨Role.system, ctxHeader ++ snippet ++ ctxFooter⟩

/-- The check of src/app.py lines 110-113: a message counts as an already
injected context message when it is a SystemMessage whose content contains
the substring "document content". -/
def isContextMsg (m : Message) : Bool :=
  m.role == Role.system && containsStr "document content" m.content

/-- The context-injection step of agent_node, src/app.py lines 105-127:
if the extracted text and the message list are both non-empty (Python
truthiness) and no context message is present yet, the text is truncated
to 4000 characters and a context SystemMessage is inserted at index 0. -/
def ensureContext (contextText : String) (messages : List Message) : List Message :=
  if contextText = "" ∨ messages = [] then messages
  else if messages.any isContextMsg then messages
  else contextMessage (strTake contextText 4000) :: messages

/-- agent_node, src/app.py lines 95-136. The ChatGroq construction plus
llm.invoke is abstracted as llm; Except.error e stands for a raised
exception with message e. The function returns the delta message list that
the add_messages reducer appends to the graph state: the model reply on
success, or an AIMessage "Error: ..." built at line 135 on any exception. -/
def agent_node (contextText : String)
    (llm : List Message → Except String String)
    (messages : List Message) : List Message :=
  match llm (ensureContext contextText messages) with
  | Except.ok reply => [⟨Role.assistant, reply⟩]
  | Except.error e => [⟨Role.assistant, "Error: " ++ e⟩]

theorem listStartsWith_nil (l : List Char) : listStartsWith [] l = true := by
  cases l <;> rfl

theorem listStartsWith_append (n : List Char) :
    ∀ l r : List Char, listStartsWith n l = true →
      listStartsWith n (l ++ r) = true := by
  induction n with
  | nil => intro l r _; exact listStartsWith_nil _
  | cons a as ih =>
    intro l r h
    cases l with
    | nil => simp [listStartsWith] at h
    | cons b bs =>
      simp only [listStartsWith, Bool.and_eq_true] at h
      simp only [List.cons_append, listStartsWith, Bool.and_eq_true]
      exact ⟨h.1, ih bs r h.2⟩

theorem listHasSub_cons (n : List Char) (b : Char) (bs : List Char) :
    listHasSub n (b :: bs) =
      (listStartsWith n (b :: bs) || listHasSub n bs) := rfl

theorem listHasSub_of_startsWith (n : List Char) :
    ∀ l : List Char, listStartsWith n l = true → listHasSub n l = true := by
  intro l h
  cases l with
  | nil => exact h
  | cons b bs => rw [listHasSub_cons, h, Bool.true_or]

theorem listHasSub_append (n : List Char) :
    ∀ l r : List Char, listHasSub n l = true →
      listHasSub n (l ++ r) = true := by
  intro l
  induction l with
  | nil =>
    intro r h
    cases n with
    | nil =>
      exact listHasSub_of_startsWith _ _ (listStartsWith_nil r)
    | cons a as => simp [listHasSub, listStartsWith] at h
  | cons b bs ih =>
    intro r h
    rw [listHasSub_cons] at h
    rw [List.cons_append, listHasSub_cons]
    rcases Bool.or_eq_true_iff.mp h with h1 | h2
    · have h3 := listStartsWith_append n (b :: bs) r h1
      rw [List.cons_append] at h3
      rw [h3, Bool.true_or]
    · rw [ih r h2, Bool.or_true]

theorem containsStr_append_left (n a b : String) (h : containsStr n a = true) :
    containsStr n (a ++ b) = true := by
  unfold containsStr at h ⊢
  rw [String.data_append]
  exact listHasSub_append _ _ _ h

/-- The injected context message always passes the presence check of
src/app.py lines 110-113: it is a system message and its fixed header
contains the substring "document content". -/
theorem isContextMsg_contextMessage (snippet : String) :
    isContextMsg (contextMessage snippet) = true := by
  unfold isContextMsg contextMessage
  simp only [Bool.and_eq_true, beq_iff_eq]
  refine ⟨rfl, ?_⟩
  have h1 : containsStr "document content" ctxHeader = true := by decide
  have h2 := containsStr_append_left _ ctxHeader snippet h1
  have h3 := containsStr_append_left _ (ctxHeader ++ snippet) ctxFooter h2
  exact h3

theorem isContextMsg_user (c : String) :
    isContextMsg ⟨Role.user, c⟩ = false := rfl

theorem isContextMsg_assistant (c : String) :
    isContextMsg ⟨Role.assistant, c⟩ = false := rfl

/-- Python str.strip on the character list: drop whitespace at both ends. -/
def stripChars (l : List Char) : List Char :=
  ((l.dropWhile Char.isWhitespace).reverse.dropWhile Char.isWhitespace).reverse

/-- Python str.strip over a String. -/
def pyStrip (s : String) : String :=
  ⟨stripChars s.data⟩

/-- One page of a PDF as seen by the loop of src/app.py lines 57-61:
the entry may be None, page.extract_text may raise, or it returns a
string (an empty one is falsy and contributes nothing). -/
inductive PdfPage where
  | nullPage
  | extractRaises
  | extracted (t : String)
deriving DecidableEq, Repr

/-- One uploaded PDF as seen by src/app.py lines 46-61: the list entry may
be None (skipped), PdfReader may raise on it, reader.pages may be
missing or None (warned about and skipped), or it yields a page list. -/
inductive PdfFile where
  | nullFile
  | openRaises
  | noPages
  | withPages (ps : List PdfPage)
deriving DecidableEq, Repr

/-- The body of the page loop, src/app.py lines 57-61, threading the
accumulated text; Except.error marks an exception escaping to the
handler of line 64. -/
def extractPage (acc : String) : PdfPage → Except Unit String
  | PdfPage.nullPage => Except.ok acc
  | PdfPage.extractRaises => Except.error ()
  | PdfPage.extracted t =>
      Except.ok (if t = "" then acc else acc ++ t ++ "\n")

/-- The body of the file loop, src/app.py lines 46-61. -/
def extractFile (acc : String) : PdfFile → Except Unit String
  | PdfFile.nullFile => Except.ok acc
  | PdfFile.openRaises => Except.error ()
  | PdfFile.noPages => Except.ok acc
  | PdfFile.withPages ps => ps.foldlM extractPage acc

/-- extract_pdf_text, src/app.py lines 35-66. A falsy session value (None
or empty list) returns "" at line 40; the whole file loop sits inside one
try, whose except handler (lines 64-66) reports the error and returns "";
on success the accumulated text is stripped (line 63). -/
def extract_pdf_text (pdfDocs : Option (List PdfFile)) : String :=
  match pdfDocs with
  | none => ""
  | some files =>
    if files = [] then ""
    else
      match files.foldlM extractFile "" with
      | Except.ok t => pyStrip t
      | Except.error _ => ""

/-- Python str.splitlines, approximated as splitting on the newline
character (the only line terminator produced by the texts modelled here). -/
def splitNl : List Char → List (List Char)
  | [] => [[]]
  | c :: cs =>
    if c = '\n' then [] :: splitNl cs
    else
      match splitNl cs with
      | [] => [[c]]
      | g :: gs => (c :: g) :: gs

/-- Python split on the two-character separator of two spaces, scanning
left to right without overlap, as in line.split at src/app.py line 86. -/
def splitDblSpace : List Char → List (List Char)
  | [] => [[]]
  | [c] => [[c]]
  | c1 :: c2 :: cs =>
    if c1 = ' ' ∧ c2 = ' ' then [] :: splitDblSpace cs
    else
      match splitDblSpace (c2 :: cs) with
      | [] => [[c1]]
      | g :: gs => (c1 :: g) :: gs

/-- The whitespace collapsing of src/app.py lines 85-88 applied to the
output of soup.get_text: strip each line, split each line on double
spaces, strip each phrase, join the non-empty chunks with single spaces. -/
def collapseWs (t : String) : String :=
  let lines := (splitNl t.data).map stripChars
  let chunks := (lines.map (fun l => (splitDblSpace l).map stripChars)).flatten
  ⟨List.intercalate [' '] (chunks.filter (fun c => !c.isEmpty))⟩

/-- Outcome of requests.get at src/app.py line 76: a raised network error
(connection failure or timeout), or an HTTP response with its final
status code and body text. -/
inductive FetchOutcome where
  | netError
  | response (status : Nat) (body : String)
deriving DecidableEq, Repr

/-- extract_web_text, src/app.py lines 68-92. The url comes from session
state (falsy None or "" returns "" at line 73 with no error report);
response.raise_for_status raises exactly for status codes 400-599; the
BeautifulSoup parse with script and style tags removed is abstracted as
soupGetText; the collapsed text is finally stripped (line 89). The Bool
result records whether st.error was called (the except branch, line 91). -/
def extract_web_text (url : Option String) (outcome : FetchOutcome)
    (soupGetText : String → String) : String × Bool :=
  match url with
  | none => ("", false)
  | some u =>
    if u = "" then ("", false)
    else
      match outcome with
      | FetchOutcome.netError => ("", true)
      | FetchOutcome.response status body =>
        if 400 ≤ status ∧ status < 600 then ("", true)
        else (pyStrip (collapseWs (soupGetText body)), false)

/-- The Streamlit session state of src/app.py lines 11-28 restricted to
the fields the conversational core reads and writes. -/
structure Session where
  webUrl : Option String
  uploadedPdf : Option (List PdfFile)
  documentsProcessed : Bool
  chatMessages : List Message
  extractedText : String
deriving DecidableEq, Repr

/-- One chat turn, src/app.py lines 242-278: with no extracted text the
input is rejected with a warning (line 244) and nothing else happens;
otherwise the user message is appended (lines 251-252), the graph runs
agent_node on the full list, and chat_messages becomes the merged state:
the input list followed by the delta agent_node returned (lines 257-264).
The Bool result records whether the precondition warning was shown. -/
def runTurn (llm : List Message → Except String String)
    (s : Session) (prompt : String) : Session × Bool :=
  if s.extractedText = "" then (s, true)
  else
    let msgs := s.chatMessages ++ [⟨Role.user, prompt⟩]
    ({ s with chatMessages := msgs ++ agent_node s.extractedText llm msgs }, false)

/-- Iterated chat turns with the same llm and document. -/
def runTurns (llm : List Message → Except String String)
    (s : Session) : List String → Session
  | [] => s
  | p :: ps => runTurns llm (runTurn llm s p).1 ps

/-- The Web URL sidebar branch, src/app.py lines 179-195, as entered with
a non-empty url and the Load URL button pressed. State is cleared only
when the stored web_url differs from the submitted one (lines 180-185);
extraction then runs only if documents_processed is false, and fetched
models the text extract_web_text returns for the stored url. -/
def loadUrl (fetched : String → String) (s : Session) (newUrl : String) : Session :=
  let s' :=
    if s.webUrl ≠ some newUrl then
      { s with webUrl := some newUrl, uploadedPdf := none,
               documentsProcessed := false, chatMessages := [], extractedText := "" }
    else s
  if s'.documentsProcessed then s'
  else
    let text := fetched newUrl
    if text = "" then s'
    else { s' with extractedText := text, documentsProcessed := true }

/-- The PDF Upload sidebar branch, src/app.py lines 158-174, as entered
with a non-empty uploader result. State is cleared only when the stored
uploaded_pdf differs from the submitted one (lines 159-164); extraction
then runs on the stored value only if documents_processed is false. -/
def loadPdf (s : Session) (newPdf : List PdfFile) : Session :=
  let s' :=
    if s.uploadedPdf ≠ some newPdf then
      { s with uploadedPdf := some newPdf, webUrl := none,
               documentsProcessed := false, chatMessages := [], extractedText := "" }
    else s
  if s'.documentsProcessed then s'
  else
    let text := extract_pdf_text s'.uploadedPdf
    if text = "" then s'
    else { s' with extractedText := text, documentsProcessed := true }

theorem ensureContext_of_empty (ms : List Message) : ensureContext "" ms = ms := by
  unfold ensureContext
  rw [if_pos (Or.inl rfl)]

theorem ensureContext_nil (d : String) : ensureContext d [] = [] := by
  unfold ensureContext
  rw [if_pos (Or.inr rfl)]

theorem ensureContext_of_hasCtx (d : String) (ms : List Message)
    (h : ms.any isContextMsg = true) : ensureContext d ms = ms := by
  unfold ensureContext
  by_cases h0 : d = "" ∨ ms = []
  · rw [if_pos h0]
  · rw [if_neg h0, if_pos h]

theorem ensureContext_inject (d : String) (ms : List Message)
    (hd : d ≠ "") (hm : ms ≠ []) (h : ms.any isContextMsg = false) :
    ensureContext d ms = contextMessage (strTake d 4000) :: ms := by
  unfold ensureContext
  rw [if_neg (by rintro (h1 | h2); exact hd h1; exact hm h2),
    if_neg (by rw [h]; exact Bool.false_ne_true)]

theorem strTake_length (s : String) (n : Nat) :
    (strTake s n).length = min n s.length := by
  show (s.data.take n).length = min n s.data.length
  exact List.length_take ..

theorem strTake_of_le (s : String) (n : Nat) (h : s.length ≤ n) :
    strTake s n = s := by
  unfold strTake
  rw [List.take_of_length_le h]

/-- Whatever agent_node returns, the delta is one assistant message. -/
theorem agent_node_assistant (d : String)
    (llm : List Message → Except String String) (msgs : List Message) :
    ∃ c, agent_node d llm msgs = [⟨Role.assistant, c⟩] := by
  unfold agent_node
  cases llm (ensureContext d msgs) with
  | ok r => exact ⟨r, rfl⟩
  | error e => exact ⟨"Error: " ++ e, rfl⟩

/-- A turn never adds a context message to the stored conversation: the
injected SystemMessage lives only in the list handed to the model, while
agent_node returns just the assistant delta (src/app.py line 132). -/
theorem runTurn_noCtx (llm : List Message → Except String String)
    (s : Session) (p : String)
    (h : s.chatMessages.any isContextMsg = false) :
    (runTurn llm s p).1.chatMessages.any isContextMsg = false := by
  unfold runTurn
  by_cases he : s.extractedText = ""
  · rw [if_pos he]; exact h
  · rw [if_neg he]
    show ((s.chatMessages ++ [Message.mk Role.user p])
      ++ agent_node s.extractedText llm
          (s.chatMessages ++ [Message.mk Role.user p])).any
        isContextMsg = false
    obtain ⟨c, hc⟩ := agent_node_assistant s.extractedText llm
      (s.chatMessages ++ [Message.mk Role.user p])
    rw [hc, List.any_append, List.any_append, h]
    simp [isContextMsg_user, isContextMsg_assistant]

theorem runTurns_noCtx (llm : List Message → Except String String)
    (prompts : List String) :
    ∀ s : Session, s.chatMessages.any isContextMsg = false →
      (runTurns llm s prompts).chatMessages.any isContextMsg = false := by
  induction prompts with
  | nil => intro s h; exact h
  | cons p ps ih =>
    intro s h
    exact ih (runTurn llm s p).1 (runTurn_noCtx llm s p h)

/-- Marks a page whose extract_text call raises. -/
def pageRaises : PdfPage → Bool
  | PdfPage.extractRaises => true
  | _ => false

/-- Marks a file whose processing raises: PdfReader itself, or the
extraction of one of its pages. -/
def fileRaises : PdfFile → Bool
  | PdfFile.openRaises => true
  | PdfFile.withPages ps => ps.any pageRaises
  | _ => false

theorem extractPage_ok (acc : String) (p : PdfPage) (h : pageRaises p = false) :
    ∃ acc', extractPage acc p = Except.ok acc' := by
  cases p with
  | nullPage => exact ⟨acc, rfl⟩
  | extractRaises => simp [pageRaises] at h
  | extracted t => exact ⟨_, rfl⟩

theorem pagesFold_error (ps : List PdfPage) :
    ∀ acc : String, ps.any pageRaises = true →
      ps.foldlM extractPage acc = Except.error () := by
  induction ps with
  | nil => intro acc h; simp at h
  | cons p ps ih =>
    intro acc h
    rw [List.foldlM_cons]
    cases hp : pageRaises p with
    | false =>
      obtain ⟨acc', ha⟩ := extractPage_ok acc p hp
      rw [ha]
      show ps.foldlM extractPage acc' = Except.error ()
      apply ih
      rw [List.any_cons, hp, Bool.false_or] at h
      exact h
    | true =>
      have hpe : extractPage acc p = Except.error () := by
        cases p with
        | nullPage => simp [pageRaises] at hp
        | extractRaises => rfl
        | extracted t => simp [pageRaises] at hp
      rw [hpe]
      rfl

theorem pagesFold_ok (ps : List PdfPage) :
    ∀ acc : String, ps.any pageRaises = false →
      ∃ acc', ps.foldlM extractPage acc = Except.ok acc' := by
  induction ps with
  | nil => intro acc _; exact ⟨acc, rfl⟩
  | cons p ps ih =>
    intro acc h
    rw [List.any_cons, Bool.or_eq_false_iff] at h
    obtain ⟨acc1, ha⟩ := extractPage_ok acc p h.1
    rw [List.foldlM_cons, ha]
    show ∃ acc', ps.foldlM extractPage acc1 = Except.ok acc'
    exact ih acc1 h.2

theorem extractFile_error (acc : String) (f : PdfFile) (h : fileRaises f = true) :
    extractFile acc f = Except.error () := by
  cases f with
  | nullFile => simp [fileRaises] at h
  | openRaises => rfl
  | noPages => simp [fileRaises] at h
  | withPages ps =>
    simp only [fileRaises] at h
    exact pagesFold_error ps acc h

theorem extractFile_ok (acc : String) (f : PdfFile) (h : fileRaises f = false) :
    ∃ acc', extractFile acc f = Except.ok acc' := by
  cases f with
  | nullFile => exact ⟨acc, rfl⟩
  | openRaises => simp [fileRaises] at h
  | noPages => exact ⟨acc, rfl⟩
  | withPages ps =>
    simp only [fileRaises] at h
    exact pagesFold_ok ps acc h

theorem filesFold_error (files : List PdfFile) :
    ∀ acc : String, files.any fileRaises = true →
      files.foldlM extractFile acc = Except.error () := by
  induction files with
  | nil => intro acc h; simp at h
  | cons f fs ih =>
    intro acc h
    rw [List.foldlM_cons]
    cases hf : fileRaises f with
    | false =>
      obtain ⟨acc', ha⟩ := extractFile_ok acc f hf
      rw [ha]
      show fs.foldlM extractFile acc' = Except.error ()
      apply ih
      rw [List.any_cons, hf, Bool.false_or] at h
      exact h
    | true =>
      rw [extractFile_error acc f hf]
      rfl

/-- A model client that always replies with a fixed answer. -/
def demoLlm : List Message → Except String String :=
  fun _ => Except.ok "a reply"

/-- A model client whose every invocation raises. -/
def failingLlm : List Message → Except String String :=
  fun _ => Except.error "boom"

/-- A fetcher standing in for extract_web_text returning a fixed text. -/
def constNewText : String → String :=
  fun _ => "new text"

/-- A fetcher standing in for extract_web_text returning no text. -/
def emptyFetch : String → String :=
  fun _ => ""

/-- A parse that returns the response body as the page text. -/
def echoBody : String → String :=
  fun b => b

/-- A session with a ready document and one user message stored. -/
def demoSession : Session :=
  ⟨none, none, true, [⟨Role.user, "q"⟩], "doc"⟩

/-- A session with a ready document and an empty conversation. -/
def readySession : Session :=
  ⟨none, none, true, [], "doc text"⟩

/-- A session with no extracted text but a pending conversation. -/
def emptyDocSession : Session :=
  ⟨none, none, false, [⟨Role.user, "hi"⟩], ""⟩

/-- A session that already processed the url stored in it. -/
def sameUrlSession : Session :=
  ⟨some "http://x", none, true,
    [⟨Role.user, "hi"⟩, ⟨Role.assistant, "hello"⟩], "old text"⟩

/-- C1: Context injection is idempotent: for every conversation and every
document text, applying the injection step of agent_node twice yields the
same message list as applying it once; the check that some SystemMessage
already containing "document content" is present blocks a second
insertion. -/
theorem ensureContext_idempotent (d : String) (ms : List Message) :
    ensureContext d (ensureContext d ms) = ensureContext d ms := by
  by_cases hd : d = ""
  · rw [hd, ensureContext_of_empty, ensureContext_of_empty]
  · by_cases hm : ms = []
    · rw [hm, ensureContext_nil, ensureContext_nil]
    · by_cases hc : ms.any isContextMsg = true
      · rw [ensureContext_of_hasCtx d ms hc, ensureContext_of_hasCtx d ms hc]
      · have hc' : ms.any isContextMsg = false := by simpa using hc
        rw [ensureContext_inject d ms hd hm hc']
        apply ensureContext_of_hasCtx
        rw [List.any_cons, isContextMsg_contextMessage, Bool.true_or]

/-- C2: Truncation bound: when injection fires, the embedded snippet is
the slice of the document text at 4000 characters: exactly 4000
characters when the text is longer, the unmodified text otherwise. -/
theorem truncation_bound (d : String) (ms : List Message)
    (hd : d ≠ "") (hm : ms ≠ []) (hno : ms.any isContextMsg = false) :
    ensureContext d ms = contextMessage (strTake d 4000) :: ms
    ∧ (4000 < d.length → (strTake d 4000).length = 4000)
    ∧ (d.length ≤ 4000 → strTake d 4000 = d) := by
  refine ⟨ensureContext_inject d ms hd hm hno, ?_, ?_⟩
  · intro h
    rw [strTake_length]
    exact Nat.min_eq_left (Nat.le_of_lt h)
  · intro h
    exact strTake_of_le d 4000 h

theorem truncation_bound_witness :
    ("abc" ≠ "" ∧ ([⟨Role.user, "q"⟩] : List Message) ≠ []
      ∧ ([⟨Role.user, "q"⟩] : List Message).any isContextMsg = false)
    ∧ (ensureContext "abc" [⟨Role.user, "q"⟩]
        = contextMessage (strTake "abc" 4000) :: [⟨Role.user, "q"⟩]
      ∧ (4000 < "abc".length → (strTake "abc" 4000).length = 4000)
      ∧ ("abc".length ≤ 4000 → strTake "abc" 4000 = "abc")) :=
  ⟨⟨by decide, by decide, by decide⟩,
    truncation_bound "abc" [⟨Role.user, "q"⟩] (by decide) (by decide) (by decide)⟩

/-- C3: Placement invariant: starting from a conversation with no context
message, after injection any existing context message is the single one
and sits at index 0; and across any number of consecutive turns the
stored conversation never accumulates a context message, so each turn
re-injects into a context-free list. -/
theorem context_placement (d : String) (ms : List Message)
    (h : ms.any isContextMsg = false) :
    ((ensureContext d ms).any isContextMsg = true →
      (ensureContext d ms).countP isContextMsg = 1
      ∧ ∃ t, ensureContext d ms = contextMessage (strTake d 4000) :: t
          ∧ t.any isContextMsg = false)
    ∧ ∀ (llm : List Message → Except String String) (prompts : List String)
        (s : Session), s.chatMessages = ms →
        (runTurns llm s prompts).chatMessages.any isContextMsg = false := by
  constructor
  · intro hany
    by_cases hd : d = ""
    · rw [hd, ensureContext_of_empty] at hany
      rw [h] at hany
      cases hany
    · by_cases hm : ms = []
      · rw [hm, ensureContext_nil] at hany
        simp at hany
      · rw [ensureContext_inject d ms hd hm h]
        refine ⟨?_, ms, rfl, h⟩
        have h0 : ms.countP isContextMsg = 0 :=
          List.countP_eq_zero.mpr (List.any_eq_false.mp h)
        rw [List.countP_cons_of_pos _ _ (isContextMsg_contextMessage _), h0]
  · intro llm prompts s hs
    apply runTurns_noCtx
    rw [hs]
    exact h

theorem context_placement_witness :
    (([⟨Role.user, "q"⟩] : List Message).any isContextMsg = false)
    ∧ (ensureContext "doc" [⟨Role.user, "q"⟩]).countP isContextMsg = 1
    ∧ (runTurns demoLlm demoSession ["next", "more"]).chatMessages.any
        isContextMsg = false := by
  have h := context_placement "doc" [⟨Role.user, "q"⟩] (by decide)
  exact ⟨by decide, (h.1 (by decide)).1,
    h.2 demoLlm ["next", "more"] demoSession rfl⟩

/-- C4 counterexample: submitting the source already stored in the
session (same url, document processed) leaves the whole session,
including its non-empty conversation and its old extracted text,
unchanged: the clearing of src/app.py lines 180-185 is conditional on
the source differing, not unconditional. -/
theorem loadUrl_same_source_keeps_conversation :
    sameUrlSession.chatMessages ≠ []
    ∧ loadUrl constNewText sameUrlSession "http://x" = sameUrlSession := by
  decide

/-- C4 (amended): loading a document clears the conversation and replaces
the stored text whenever the submitted source differs from the stored
one (for both the url and the pdf branch); resubmitting the identical
source does not clear. -/
theorem setDocument_resets_on_change (fetched : String → String) (s : Session)
    (newUrl : String) (newPdf : List PdfFile)
    (hu : s.webUrl ≠ some newUrl) (hp : s.uploadedPdf ≠ some newPdf) :
    ((loadUrl fetched s newUrl).chatMessages = []
      ∧ (loadUrl fetched s newUrl).extractedText = fetched newUrl
      ∧ (loadUrl fetched s newUrl).webUrl = some newUrl)
    ∧ ((loadPdf s newPdf).chatMessages = []
      ∧ (loadPdf s newPdf).extractedText = extract_pdf_text (some newPdf)
      ∧ (loadPdf s newPdf).uploadedPdf = some newPdf) := by
  constructor
  · unfold loadUrl
    rw [if_pos hu]
    by_cases hf : fetched newUrl = ""
    · simp [hf]
    · simp [hf]
  · unfold loadPdf
    rw [if_pos hp]
    by_cases hf : extract_pdf_text (some newPdf) = ""
    · simp [hf]
    · simp [hf]

theorem setDocument_resets_on_change_witness :
    (sameUrlSession.webUrl ≠ some "http://y"
      ∧ sameUrlSession.uploadedPdf ≠ some [PdfFile.noPages])
    ∧ ((loadUrl constNewText sameUrlSession "http://y").chatMessages = []
      ∧ (loadUrl constNewText sameUrlSession "http://y").extractedText
          = constNewText "http://y") := by
  have h := setDocument_resets_on_change constNewText sameUrlSession "http://y"
    [PdfFile.noPages] (by decide) (by decide)
  exact ⟨⟨by decide, by decide⟩, h.1.1, h.1.2.1⟩

/-- C5: Turn rejection atomicity: a prompt submitted while no extracted
text is present leaves the session unchanged, appends nothing, makes no
model call (the result is the same for every model client), and raises
the precondition warning. -/
theorem turn_rejected_when_not_ready (llm : List Message → Except String String)
    (s : Session) (prompt : String) (h : s.extractedText = "") :
    runTurn llm s prompt = (s, true) := by
  unfold runTurn
  rw [if_pos h]

theorem turn_rejected_when_not_ready_witness :
    emptyDocSession.extractedText = ""
    ∧ runTurn demoLlm emptyDocSession "hello" = (emptyDocSession, true) :=
  ⟨rfl, turn_rejected_when_not_ready demoLlm emptyDocSession "hello" rfl⟩

/-- C6: Failure containment: with a ready document, if the model client
raises on every invocation, the turn still completes and appends the
user message followed by an assistant message whose content is the
error string "Error: ..." containing the indicator "Error". -/
theorem model_failure_contained (llm : List Message → Except String String)
    (s : Session) (prompt : String)
    (hready : s.extractedText ≠ "")
    (hfail : ∀ msgs, ∃ e, llm msgs = Except.error e) :
    ∃ e, (runTurn llm s prompt).1.chatMessages
        = s.chatMessages ++ [Message.mk Role.user prompt,
            Message.mk Role.assistant ("Error: " ++ e)]
      ∧ containsStr "Error" ("Error: " ++ e) = true := by
  obtain ⟨e, he⟩ := hfail (ensureContext s.extractedText
    (s.chatMessages ++ [Message.mk Role.user prompt]))
  refine ⟨e, ?_, containsStr_append_left "Error" "Error: " e (by decide)⟩
  unfold runTurn
  rw [if_neg hready]
  show (s.chatMessages ++ [Message.mk Role.user prompt])
      ++ agent_node s.extractedText llm
          (s.chatMessages ++ [Message.mk Role.user prompt]) = _
  unfold agent_node
  rw [he, List.append_assoc]
  rfl

theorem model_failure_contained_witness :
    ∃ e, (runTurn failingLlm readySession "q").1.chatMessages
        = readySession.chatMessages ++ [Message.mk Role.user "q",
            Message.mk Role.assistant ("Error: " ++ e)]
      ∧ containsStr "Error" ("Error: " ++ e) = true :=
  model_failure_contained failingLlm readySession "q" (by decide)
    (fun msgs => ⟨"boom", rfl⟩)

/-- C7 counterexample: with a readable file followed by a file whose
PdfReader raises, extract_pdf_text returns "" and discards the first
file's text, although extracting the first file alone yields "A"; so a
failure in one file does abort extraction of the others and the result
is empty even though something was extractable. -/
theorem pdf_failure_discards_other_files :
    extract_pdf_text (some [PdfFile.withPages [PdfPage.extracted "A"],
      PdfFile.openRaises]) = ""
    ∧ extract_pdf_text (some [PdfFile.withPages [PdfPage.extracted "A"]])
        = "A" := by
  decide

/-- C7 (amended): the single try block around the file loop means any
file that raises (on open or while extracting a page) aborts the whole
extraction to the empty string, discarding the other files' text; only
files whose reader exposes no pages are skipped while the remaining
files are still processed. -/
theorem pdf_raise_aborts_extraction (files : List PdfFile) (f : PdfFile)
    (hmem : f ∈ files) (hr : fileRaises f = true) :
    extract_pdf_text (some files) = ""
    ∧ ∀ fs1 fs2 : List PdfFile,
        extract_pdf_text (some (fs1 ++ PdfFile.noPages :: fs2))
          = extract_pdf_text (some (fs1 ++ fs2)) := by
  constructor
  · have hne : files ≠ [] := by
      intro h0
      rw [h0] at hmem
      cases hmem
    have hany : files.any fileRaises = true :=
      List.any_eq_true.mpr ⟨f, hmem, hr⟩
    simp only [extract_pdf_text]
    rw [if_neg hne, filesFold_error files "" hany]
  · intro fs1 fs2
    have hfold : (fs1 ++ PdfFile.noPages :: fs2).foldlM extractFile ""
        = (fs1 ++ fs2).foldlM extractFile "" := by
      rw [List.foldlM_append, List.foldlM_append]
      cases hfs : fs1.foldlM extractFile "" with
      | error e => rfl
      | ok b =>
        show (PdfFile.noPages :: fs2).foldlM extractFile b
            = fs2.foldlM extractFile b
        rw [List.foldlM_cons]
        rfl
    by_cases h0 : fs1 ++ fs2 = []
    · obtain ⟨h1, h2⟩ := List.append_eq_nil.mp h0
      rw [h1, h2]
      decide
    · have h1 : fs1 ++ PdfFile.noPages :: fs2 ≠ [] := by
        cases fs1 with
        | nil => simp
        | cons a as => simp
      simp only [extract_pdf_text]
      rw [if_neg h1, if_neg h0, hfold]

theorem pdf_raise_aborts_extraction_witness :
    (PdfFile.openRaises ∈ [PdfFile.openRaises]
      ∧ fileRaises PdfFile.openRaises = true)
    ∧ extract_pdf_text (some [PdfFile.openRaises]) = "" := by
  refine ⟨⟨List.mem_singleton.mpr rfl, rfl⟩, ?_⟩
  exact (pdf_raise_aborts_extraction [PdfFile.openRaises] PdfFile.openRaises
    (List.mem_singleton.mpr rfl) rfl).1

/-- C8: Empty-document no-op: with an empty document text the injection
step returns the conversation unchanged. -/
theorem empty_document_noop (ms : List Message) :
    ensureContext "" ms = ms :=
  ensureContext_of_empty ms

/-- C9 counterexample: an HTTP 304 response is non-2xx, yet
raise_for_status raises only for statuses 400-599, so extract_web_text
parses the body and signals no error instead of returning the empty
string with an error signal. -/
theorem web_fetch_non2xx_not_failing :
    ¬ (200 ≤ 304 ∧ 304 < 300)
    ∧ extract_web_text (some "http://x") (FetchOutcome.response 304 "hello")
        echoBody = ("hello", false) := by
  decide

/-- C9 (amended): extract_web_text returns the empty string and signals
an error for a network error or an HTTP status in 400-599 (the range
raise_for_status raises on; other non-2xx statuses pass through as
success); a fetch that yields no text leaves a freshly loaded document
not ready, with an empty conversation. -/
theorem web_fetch_failure_result (u : String) (outcome : FetchOutcome)
    (soupGetText : String → String) (hu : u ≠ "")
    (h : outcome = FetchOutcome.netError
      ∨ ∃ st body, outcome = FetchOutcome.response st body
          ∧ 400 ≤ st ∧ st < 600) :
    extract_web_text (some u) outcome soupGetText = ("", true)
    ∧ ∀ s : Session, s.webUrl ≠ some u →
        ((loadUrl emptyFetch s u).extractedText = ""
          ∧ (loadUrl emptyFetch s u).documentsProcessed = false
          ∧ (loadUrl emptyFetch s u).chatMessages = []) := by
  constructor
  · rcases h with h | ⟨st, body, ho, h4, h6⟩
    · rw [h]
      show (if u = "" then (("" : String), false) else ("", true)) = ("", true)
      rw [if_neg hu]
    · rw [ho]
      show (if u = "" then (("" : String), false)
        else if 400 ≤ st ∧ st < 600 then ("", true)
        else (pyStrip (collapseWs (soupGetText body)), false)) = ("", true)
      rw [if_neg hu, if_pos ⟨h4, h6⟩]
  · intro s hs
    unfold loadUrl
    rw [if_pos hs]
    simp [emptyFetch]

theorem web_fetch_failure_result_witness :
    ("http://x" ≠ "")
    ∧ extract_web_text (some "http://x") (FetchOutcome.response 404 "nf")
        echoBody = ("", true)
    ∧ (loadUrl emptyFetch emptyDocSession "http://x").chatMessages = [] := by
  have h := web_fetch_failure_result "http://x" (FetchOutcome.response 404 "nf")
    echoBody (by decide) (Or.inr ⟨404, "nf", rfl, by decide, by decide⟩)
  exact ⟨by decide, h.1, (h.2 emptyDocSession (by decide)).2.2⟩

/-- C10: injection requires a non-empty message list: on an empty
conversation agent_node inserts no context message even for a non-empty
document, and the model call behaves exactly as when no document is
loaded at all. -/
theorem injection_needs_nonempty_conversation (d : String)
    (llm : List Message → Except String String) :
    ensureContext d [] = []
    ∧ agent_node d llm [] = agent_node "" llm [] := by
  refine ⟨ensureContext_nil d, ?_⟩
  unfold agent_node
  rw [ensureContext_nil, ensureContext_of_empty]
